import Mathlib

/-!
Verification of the floor-plan geometry and presentation engine of the
Floor_Plan repository against its specification.

The 2D editor (file `frontend/components/display/Furniture.tsx`,
component `FloorPlanEditor`) is embedded over exact rationals: every
numeric operation of the source is an exact field operation except
`Math.round`, which is embedded as `jsRound x = ⌊x + 1/2⌋` (the JS
rounding rule for finite inputs, half away from zero towards +∞).
JavaScript double precision is idealised by exact rational arithmetic.

The polygon of a room is a `List (Option (ℚ × ℚ))`: a `none` entry
models a hole of a JavaScript sparse array.  Holes arise only when the
drag handler writes a vertex past the end of the polygon
(`newPolygon[vertexIndex] = ...` extends the array); `Array.prototype.reduce`
and `Array.prototype.forEach` skip holes, which the flattening and
bounding-box functions below reproduce.  Rooms coming from the backend
or from the normalizer are dense (`List.map some`).

The normalizer and the 3D projector use `Math.sqrt`, embedded over ℝ
with `Real.sqrt` in a separate section below.
-/

/-- JS `Math.round` on a finite value: round half towards positive infinity. -/
def jsRound (q : ℚ) : ℤ := ⌊q + 1/2⌋

/-- JS falsy-guard `a || 1` for a non-negative numeric `a`: `0` is falsy. -/
def jsOrOne (q : ℚ) : ℚ := if q = 0 then 1 else q

/-- One iteration of the `calculatePolygonArea` loop body: the state is
the running `(area, j)`, the argument the current index `i`;
`area += (points[j] + points[i]) * (points[j+1] - points[i+1]); j = i`. -/
def shoeStep (points : List ℚ) (s : ℚ × ℕ) (i : ℕ) : ℚ × ℕ :=
  (s.1 + (points.getD s.2 0 + points.getD i 0) *
    (points.getD (s.2 + 1) 0 - points.getD (i + 1) 0), i)

/-- Shoelace area from `Furniture.tsx` (`calculatePolygonArea`): the loop
`for (i = 0; i < points.length; i += 2)` over the flattened coordinate
array, with the running previous index `j` initialised to `points.length - 2`
and set to `i` after each iteration.  Index reads are total via `getD`;
callers always pass an even-length flattening of a point list, for which
every read is in bounds exactly as in the source. -/
def calculatePolygonArea (points : List ℚ) : ℚ :=
  let idxs := (List.range ((points.length + 1) / 2)).map (fun k => 2 * k)
  |(idxs.foldl (shoeStep points) (0, points.length - 2)).1| / 2

/-- The flattening `polygon.reduce((acc, point) => [...acc, point[0], point[1]], [])`
applied to a dense point list. -/
def flattenPairs (pts : List (ℚ × ℚ)) : List ℚ :=
  pts.foldl (fun acc p => acc ++ [p.1, p.2]) []

/-- The same reduce applied to a possibly sparse polygon: JS `reduce`
skips holes. -/
def flattenOpt (pts : List (Option (ℚ × ℚ))) : List ℚ :=
  pts.foldl (fun acc p =>
    match p with
    | some q => acc ++ [q.1, q.2]
    | none => acc) []

/-- A room as used by `FloorPlanEditor`: the fields the editor reads or
writes.  `id` is the untyped `(room as any).id`; presentation-only fields
(`furniture`, insights) are omitted as no embedded operation touches them. -/
structure Room where
  id : Option ℤ
  type : String
  polygon : List (Option (ℚ × ℚ))
  area_sqft : ℚ
deriving DecidableEq, Repr

/-- The aggregate `FloorPlanMetadata` as far as the editor touches it:
`rooms` and `total_area_sqft` are overwritten on every emission, the
remaining numeric fields ride along through the object spread. -/
structure FloorPlan where
  total_area_sqft : ℚ
  rooms : List Room
  num_bedrooms : ℕ
  num_bathrooms : ℕ
deriving DecidableEq, Repr

/-- The scan of
`updatedRooms.findIndex(r => (r as any).id === roomId || updatedRooms.indexOf(r) === roomId)`:
first index whose room carries the requested `id`, or whose position
equals `roomId`.  (`indexOf(r)` is the position of `r`; the cloned room
objects are pairwise distinct references.) -/
def findRoomIdxAux (roomId : ℤ) : List Room → ℕ → Option ℕ
  | [], _ => none
  | r :: rs, i =>
    if r.id = some roomId ∨ (i : ℤ) = roomId then some i
    else findRoomIdxAux roomId rs (i + 1)

/-- Room lookup used by `handleDragVertex`. -/
def findRoomIdx (rooms : List Room) (roomId : ℤ) : Option ℕ :=
  findRoomIdxAux roomId rooms 0

/-- JS array element write `a[i] = v`: in range it replaces, past the end
it extends the array to length `i + 1`, filling the gap with holes. -/
def jsSetVertex (poly : List (Option (ℚ × ℚ))) (i : ℕ) (v : ℚ × ℚ) :
    List (Option (ℚ × ℚ)) :=
  if i < poly.length then poly.set i (some v)
  else poly ++ List.replicate (i - poly.length) none ++ [some v]

/-- Placeholder room for total `getD` access; every use is guarded by an
in-bounds fact coming from `findRoomIdx`. -/
def defaultRoom : Room := ⟨none, "", [], 0⟩

/-- The body of `handleDragVertex` in `Furniture.tsx`.  Inputs: the
`metadata` prop, the previous `rooms` state, the dragged room id and
vertex index, and the new vertex position (already in polygon
coordinates).  Output: the new `rooms` state returned by the `setRooms`
updater, and the aggregate passed to `onMetadataChange` when the room was
found (`none` models the early `return prevRooms`, which emits nothing). -/
def handleDragVertex (metadata : FloorPlan) (prevRooms : List Room)
    (roomId : ℤ) (vertexIndex : ℕ) (newPos : ℚ × ℚ) :
    List Room × Option FloorPlan :=
  match findRoomIdx prevRooms roomId with
  | none => (prevRooms, none)
  | some ri =>
    let room := prevRooms.getD ri defaultRoom
    let newPolygon := jsSetVertex room.polygon vertexIndex newPos
    let areaPixels := calculatePolygonArea (flattenOpt newPolygon)
    let oldAreaPixels := jsOrOne (calculatePolygonArea (flattenOpt room.polygon))
    let ratio := room.area_sqft / oldAreaPixels
    let newArea : ℚ := ((jsRound (max 10 (areaPixels * ratio)) : ℤ) : ℚ)
    let newRoom : Room := { room with polygon := newPolygon, area_sqft := newArea }
    let updatedRooms := prevRooms.set ri newRoom
    let newTotalSqft := (updatedRooms.map Room.area_sqft).sum
    (updatedRooms,
      some { metadata with rooms := updatedRooms, total_area_sqft := newTotalSqft })

/-- The stage transform state `{scale, x, y}`. -/
structure Fit where
  scale : ℚ
  x : ℚ
  y : ℚ
deriving DecidableEq, Repr

/-- Bounding box `(minX, maxX, minY, maxY)` over every polygon vertex of
every room, as accumulated by the auto-scaling effect (`forEach` skips
holes); `none` when no vertex exists (`minX` stays `Infinity`). -/
def bboxOf (rooms : List Room) : Option (ℚ × ℚ × ℚ × ℚ) :=
  let pts := rooms.flatMap (fun r => r.polygon.filterMap id)
  match pts with
  | [] => none
  | p :: rest =>
    some (rest.foldl (fun acc q =>
      (min acc.1 q.1, max acc.2.1 q.1, min acc.2.2.1 q.2, max acc.2.2.2 q.2))
      (p.1, p.1, p.2, p.2))

/-- The stage auto-scaling effect of `FloorPlanEditor`: given the rooms
and the viewport `dimensions`, the `setStageConfig` value, or `none`
when the effect bails out (`!dimensions.width || !rooms.length`, or no
vertex found). -/
def computeFit (rooms : List Room) (w h : ℚ) : Option Fit :=
  if w = 0 ∨ rooms = [] then none
  else
    match bboxOf rooms with
    | none => none
    | some (minX, maxX, minY, maxY) =>
      let contentWidth := maxX - minX
      let contentHeight := maxY - minY
      let padding : ℚ := 40
      let scaleX := (w - padding * 2) / jsOrOne contentWidth
      let scaleY := (h - padding * 2) / jsOrOne contentHeight
      let scale := min (min scaleX scaleY) 2
      some ⟨scale, (w - contentWidth * scale) / 2 - minX * scale,
        (h - contentHeight * scale) / 2 - minY * scale⟩

/-- Editor state relevant to the drag/fit interaction: the `rooms` state,
the viewport `dimensions`, and the current `stageConfig`. -/
structure EditorState where
  rooms : List Room
  width : ℚ
  height : ℚ
  stageConfig : Fit
deriving DecidableEq, Repr

/-- One drag event as React processes it: `handleDragVertex` updates the
`rooms` state; since the updater returns a fresh array whenever the room
was found, the auto-scaling effect (dependencies `[rooms, dimensions]`)
re-runs and recomputes `stageConfig` from the updated rooms.  When the
room was not found the updater returns `prevRooms` itself and React
bails out, so the effect does not re-run. -/
def dragStep (metadata : FloorPlan) (st : EditorState)
    (roomId : ℤ) (vertexIndex : ℕ) (newPos : ℚ × ℚ) : EditorState :=
  match handleDragVertex metadata st.rooms roomId vertexIndex newPos with
  | (_, none) => st
  | (rooms2, some _) =>
    { st with
      rooms := rooms2
      stageConfig := (computeFit rooms2 st.width st.height).getD st.stageConfig }

/-- The sequence of aggregates emitted to `onMetadataChange` over a list
of drag events, the parent feeding each emitted aggregate back in as the
next `metadata` prop. -/
def emissionTrace : List (ℤ × ℕ × (ℚ × ℚ)) → FloorPlan → List Room →
    List FloorPlan
  | [], _, _ => []
  | e :: es, md, rooms =>
    match handleDragVertex md rooms e.1 e.2.1 e.2.2 with
    | (rooms2, none) => emissionTrace es md rooms2
    | (rooms2, some agg) => agg :: emissionTrace es agg rooms2

/-- Index of the previous vertex with wrap-around, as the specification
words it: the predecessor of 0 is the last index. -/
def prevIdx (n i : ℕ) : ℕ := if i = 0 then n - 1 else i - 1

/-- The signed shoelace sum over a point list, written the way the
specification states it: an indexed sum over the vertices, each term
pairing a vertex with its wrap-around predecessor. -/
def shoelaceSum (pts : List (ℚ × ℚ)) : ℚ :=
  ∑ i ∈ Finset.range pts.length,
    ((pts.getD (prevIdx pts.length i) (0, 0)).1 + (pts.getD i (0, 0)).1) *
      ((pts.getD (prevIdx pts.length i) (0, 0)).2 - (pts.getD i (0, 0)).2)

/-- The area formula exactly as the specification words it. -/
def shoelaceFormula (pts : List (ℚ × ℚ)) : ℚ := |shoelaceSum pts| / 2

theorem flattenPairs_eq_flatMap (pts : List (ℚ × ℚ)) :
    flattenPairs pts = pts.flatMap (fun p => [p.1, p.2]) := by
  suffices h : ∀ acc, pts.foldl (fun acc p => acc ++ [p.1, p.2]) acc
      = acc ++ pts.flatMap (fun p => [p.1, p.2]) by
    simpa using h []
  induction pts with
  | nil => simp
  | cons p rest ih =>
    intro acc
    simp [List.flatMap_cons, ih (acc ++ [p.1, p.2])]

theorem flattenPairs_length (pts : List (ℚ × ℚ)) :
    (flattenPairs pts).length = 2 * pts.length := by
  rw [flattenPairs_eq_flatMap]
  induction pts with
  | nil => rfl
  | cons p rest ih =>
    simp only [List.flatMap_cons, List.length_append, List.length_cons,
      List.length_nil, List.length_cons, ih]
    omega

theorem flattenPairs_getD_fst (pts : List (ℚ × ℚ)) (k : ℕ) (hk : k < pts.length) :
    (flattenPairs pts).getD (2 * k) 0 = (pts.getD k (0, 0)).1 := by
  rw [flattenPairs_eq_flatMap]
  induction pts generalizing k with
  | nil => exact absurd hk (by simp)
  | cons p rest ih =>
    cases k with
    | zero => simp
    | succ k =>
      rw [show 2 * (k + 1) = 2 * k + 1 + 1 by ring]
      simp only [List.flatMap_cons, List.cons_append, List.getD_cons_succ,
        List.getD_cons_zero]
      exact ih k (by simpa using Nat.lt_of_succ_lt_succ hk)

theorem flattenPairs_getD_snd (pts : List (ℚ × ℚ)) (k : ℕ) (hk : k < pts.length) :
    (flattenPairs pts).getD (2 * k + 1) 0 = (pts.getD k (0, 0)).2 := by
  rw [flattenPairs_eq_flatMap]
  induction pts generalizing k with
  | nil => exact absurd hk (by simp)
  | cons p rest ih =>
    cases k with
    | zero => simp
    | succ k =>
      rw [show 2 * (k + 1) + 1 = 2 * k + 1 + 1 + 1 by ring]
      simp only [List.flatMap_cons, List.cons_append, List.getD_cons_succ,
        List.getD_cons_zero]
      exact ih k (by simpa using Nat.lt_of_succ_lt_succ hk)

/-- The term contributed by the loop iteration with pair index `k`, with
`j0` the initial value of the running previous index. -/
def shoeTerm (flat : List ℚ) (j0 k : ℕ) : ℚ :=
  (flat.getD (if k = 0 then j0 else 2 * (k - 1)) 0 + flat.getD (2 * k) 0) *
    (flat.getD ((if k = 0 then j0 else 2 * (k - 1)) + 1) 0 - flat.getD (2 * k + 1) 0)

theorem foldl_shoeStep (flat : List ℚ) (m : ℕ) (a0 : ℚ) (j0 : ℕ) :
    ((List.range m).map (fun k => 2 * k)).foldl (shoeStep flat) (a0, j0) =
      (a0 + ∑ k ∈ Finset.range m, shoeTerm flat j0 k,
        if m = 0 then j0 else 2 * (m - 1)) := by
  induction m with
  | zero => simp
  | succ m ih =>
    rw [List.range_succ, List.map_append, List.foldl_append, ih]
    simp only [List.map_cons, List.map_nil, List.foldl_cons, List.foldl_nil, shoeStep]
    rw [Finset.sum_range_succ, if_neg (Nat.succ_ne_zero m), Nat.add_sub_cancel,
      Prod.mk.injEq]
    refine ⟨?_, rfl⟩
    unfold shoeTerm
    ring

theorem calculatePolygonArea_flattenPairs (pts : List (ℚ × ℚ)) :
    calculatePolygonArea (flattenPairs pts) = shoelaceFormula pts := by
  have key : ∀ k ∈ Finset.range pts.length,
      shoeTerm (flattenPairs pts) (2 * pts.length - 2) k =
        ((pts.getD (prevIdx pts.length k) (0, 0)).1 + (pts.getD k (0, 0)).1) *
          ((pts.getD (prevIdx pts.length k) (0, 0)).2 - (pts.getD k (0, 0)).2) := by
    intro k hk
    have hk' : k < pts.length := Finset.mem_range.mp hk
    unfold shoeTerm prevIdx
    rcases Nat.eq_zero_or_pos k with h0 | hpos
    · subst h0
      have hn : 0 < pts.length := hk'
      rw [if_pos rfl, if_pos rfl,
        show 2 * pts.length - 2 = 2 * (pts.length - 1) by omega,
        flattenPairs_getD_fst pts (pts.length - 1) (by omega),
        flattenPairs_getD_snd pts (pts.length - 1) (by omega),
        flattenPairs_getD_fst pts 0 hn, flattenPairs_getD_snd pts 0 hn]
    · rw [if_neg (Nat.pos_iff_ne_zero.mp hpos), if_neg (Nat.pos_iff_ne_zero.mp hpos),
        flattenPairs_getD_fst pts (k - 1) (by omega),
        flattenPairs_getD_snd pts (k - 1) (by omega),
        flattenPairs_getD_fst pts k hk', flattenPairs_getD_snd pts k hk']
  simp only [calculatePolygonArea, shoelaceFormula, shoelaceSum, flattenPairs_length]
  rw [show (2 * pts.length + 1) / 2 = pts.length by omega]
  simp only [foldl_shoeStep, zero_add]
  rw [Finset.sum_congr rfl key]

/-- Index of the successor vertex with wrap-around, inverse of `prevIdx`
on `Finset.range n`. -/
def nextIdx (n i : ℕ) : ℕ := if i = n - 1 then 0 else i + 1

theorem getD_map_lt {α β : Type} (f : α → β) (l : List α) (k : ℕ)
    (hk : k < l.length) (d : β) (d0 : α) : (l.map f).getD k d = f (l.getD k d0) := by
  induction l generalizing k with
  | nil => exact absurd hk (by simp)
  | cons x xs ih =>
    cases k with
    | zero => simp
    | succ k =>
      simp only [List.map_cons, List.getD_cons_succ]
      exact ih k (by simpa using Nat.lt_of_succ_lt_succ hk)

theorem shoelaceSum_two_points (p q : ℚ × ℚ) : shoelaceSum [p, q] = 0 := by
  simp [shoelaceSum, prevIdx, Finset.sum_range_succ]
  ring

theorem shoelaceSum_collinear (a d : ℚ × ℚ) (ts : List ℚ) :
    shoelaceSum (ts.map (fun t => (a.1 + t * d.1, a.2 + t * d.2))) = 0 := by
  rcases Nat.eq_zero_or_pos ts.length with h0 | hpos
  · rw [List.eq_nil_of_length_eq_zero h0]
    simp [shoelaceSum]
  · unfold shoelaceSum
    rw [List.length_map]
    have hterm : ∀ k ∈ Finset.range ts.length,
        (((ts.map (fun t => (a.1 + t * d.1, a.2 + t * d.2))).getD
            (prevIdx ts.length k) (0, 0)).1 +
          ((ts.map (fun t => (a.1 + t * d.1, a.2 + t * d.2))).getD k (0, 0)).1) *
        (((ts.map (fun t => (a.1 + t * d.1, a.2 + t * d.2))).getD
            (prevIdx ts.length k) (0, 0)).2 -
          ((ts.map (fun t => (a.1 + t * d.1, a.2 + t * d.2))).getD k (0, 0)).2) =
        (2 * a.1 * d.2 * (ts.getD (prevIdx ts.length k) 0) +
            d.1 * d.2 * (ts.getD (prevIdx ts.length k) 0) ^ 2) -
          (2 * a.1 * d.2 * (ts.getD k 0) + d.1 * d.2 * (ts.getD k 0) ^ 2) := by
      intro k hk
      have hk' : k < ts.length := Finset.mem_range.mp hk
      have hprev : prevIdx ts.length k < ts.length := by
        unfold prevIdx; split <;> omega
      rw [getD_map_lt _ _ _ hk' _ 0, getD_map_lt _ _ _ hprev _ 0]
      ring
    rw [Finset.sum_congr rfl hterm, Finset.sum_sub_distrib]
    have hperm : ∑ k ∈ Finset.range ts.length,
        (2 * a.1 * d.2 * (ts.getD (prevIdx ts.length k) 0) +
          d.1 * d.2 * (ts.getD (prevIdx ts.length k) 0) ^ 2) =
        ∑ k ∈ Finset.range ts.length,
          (2 * a.1 * d.2 * (ts.getD k 0) + d.1 * d.2 * (ts.getD k 0) ^ 2) := by
      refine Finset.sum_nbij' (prevIdx ts.length) (nextIdx ts.length)
        ?_ ?_ ?_ ?_ ?_
      · intro k hk
        have := Finset.mem_range.mp hk
        refine Finset.mem_range.mpr ?_
        unfold prevIdx; split <;> omega
      · intro k hk
        have := Finset.mem_range.mp hk
        refine Finset.mem_range.mpr ?_
        unfold nextIdx; split <;> omega
      · intro k hk
        have := Finset.mem_range.mp hk
        unfold prevIdx nextIdx
        split <;> split <;> omega
      · intro k hk
        have := Finset.mem_range.mp hk
        unfold prevIdx nextIdx
        split <;> split <;> omega
      · intro k hk
        rfl
    rw [hperm, sub_self]

/-- C6: `calculatePolygonArea` implements the shoelace formula on a
flattened point sequence (the indexed formula of the specification, with
`j` the previous index with wrap-around); it is exact on axis-aligned
rectangles (unit square gives 1, a 3-by-4 rectangle gives 12); and it
returns 0 for any 2-point input and for any collinear input, without
any failure case. -/
theorem C6_calculatePolygonArea_correct :
    (∀ pts : List (ℚ × ℚ), calculatePolygonArea (flattenPairs pts) = shoelaceFormula pts)
    ∧ calculatePolygonArea [0, 0, 1, 0, 1, 1, 0, 1] = 1
    ∧ calculatePolygonArea [0, 0, 3, 0, 3, 4, 0, 4] = 12
    ∧ (∀ p q : ℚ × ℚ, calculatePolygonArea (flattenPairs [p, q]) = 0)
    ∧ ∀ a d : ℚ × ℚ, ∀ ts : List ℚ,
        calculatePolygonArea
          (flattenPairs (ts.map (fun t => (a.1 + t * d.1, a.2 + t * d.2)))) = 0 := by
  refine ⟨calculatePolygonArea_flattenPairs, ?_, ?_, ?_, ?_⟩
  · norm_num [calculatePolygonArea, shoeStep, List.range_succ]
  · norm_num [calculatePolygonArea, shoeStep, List.range_succ]
  · intro p q
    rw [calculatePolygonArea_flattenPairs]
    simp [shoelaceFormula, shoelaceSum_two_points]
  · intro a d ts
    rw [calculatePolygonArea_flattenPairs]
    simp [shoelaceFormula, shoelaceSum_collinear]

theorem findRoomIdxAux_bounds (roomId : ℤ) (l : List Room) :
    ∀ i ri, findRoomIdxAux roomId l i = some ri → i ≤ ri ∧ ri < i + l.length := by
  induction l with
  | nil => intro i ri h; exact absurd h (by simp [findRoomIdxAux])
  | cons r rs ih =>
    intro i ri h
    rw [findRoomIdxAux] at h
    split at h
    · obtain rfl := Option.some.injEq .. ▸ h.symm
      simp
    · have := ih (i + 1) ri h
      simp only [List.length_cons]
      omega

theorem findRoomIdx_lt (rooms : List Room) (roomId : ℤ) (ri : ℕ)
    (h : findRoomIdx rooms roomId = some ri) : ri < rooms.length := by
  have := findRoomIdxAux_bounds roomId rooms 0 ri h
  omega

theorem getD_set_self (l : List Room) (i : ℕ) (r : Room) (d : Room)
    (h : i < l.length) : (l.set i r).getD i d = r := by
  rw [List.getD_eq_getElem?_getD, List.getElem?_set_self h]
  rfl

/-- The drag handler leaves the state and emits nothing when the room
lookup fails (`roomIndex === -1`). -/
theorem handleDrag_not_found (md : FloorPlan) (prevRooms : List Room)
    (roomId : ℤ) (idx : ℕ) (pos : ℚ × ℚ)
    (hfind : findRoomIdx prevRooms roomId = none) :
    handleDragVertex md prevRooms roomId idx pos = (prevRooms, none) := by
  rw [handleDragVertex, hfind]

/-- When the room is found, the handler always emits, and an out-of-range
vertex index extends the polygon rather than being ignored. -/
theorem handleDrag_out_of_range (md : FloorPlan) (prevRooms : List Room)
    (roomId : ℤ) (idx : ℕ) (pos : ℚ × ℚ) (ri : ℕ)
    (hfind : findRoomIdx prevRooms roomId = some ri)
    (hidx : ¬ idx < (prevRooms.getD ri defaultRoom).polygon.length) :
    ((handleDragVertex md prevRooms roomId idx pos).1.getD ri defaultRoom).polygon =
      (prevRooms.getD ri defaultRoom).polygon ++
        List.replicate (idx - (prevRooms.getD ri defaultRoom).polygon.length) none ++
        [some pos]
    ∧ (handleDragVertex md prevRooms roomId idx pos).2 ≠ none := by
  have hlt := findRoomIdx_lt prevRooms roomId ri hfind
  rw [handleDragVertex, hfind]
  refine ⟨?_, Option.some_ne_none _⟩
  simp only []
  rw [getD_set_self prevRooms ri _ defaultRoom hlt]
  rw [jsSetVertex, if_neg hidx]

theorem handleDrag_emit_inv (md : FloorPlan) (prevRooms : List Room)
    (roomId : ℤ) (idx : ℕ) (pos : ℚ × ℚ) (rooms2 : List Room) (agg : FloorPlan)
    (h : handleDragVertex md prevRooms roomId idx pos = (rooms2, some agg)) :
    agg.rooms = rooms2 ∧
      agg.total_area_sqft = (agg.rooms.map Room.area_sqft).sum := by
  rw [handleDragVertex] at h
  cases hfind : findRoomIdx prevRooms roomId with
  | none => rw [hfind] at h; simp at h
  | some ri =>
    rw [hfind] at h
    simp only [Prod.mk.injEq, Option.some.injEq] at h
    obtain ⟨h1, h2⟩ := h
    subst h2
    exact ⟨h1, rfl⟩

theorem emissionTrace_inv (evs : List (ℤ × ℕ × (ℚ × ℚ))) :
    ∀ (md : FloorPlan) (rooms : List Room),
      ∀ agg ∈ emissionTrace evs md rooms,
        agg.total_area_sqft = (agg.rooms.map Room.area_sqft).sum := by
  induction evs with
  | nil => intro md rooms agg h; simp [emissionTrace] at h
  | cons e es ih =>
    intro md rooms agg h
    rw [emissionTrace] at h
    cases hd : handleDragVertex md rooms e.1 e.2.1 e.2.2 with
    | mk rooms2 em =>
      rw [hd] at h
      cases em with
      | none => exact ih md rooms2 agg h
      | some agg2 =>
        rcases List.mem_cons.mp h with rfl | h
        · exact (handleDrag_emit_inv md rooms e.1 e.2.1 e.2.2 rooms2 agg hd).2
        · exact ih agg2 rooms2 agg h

/-- C4: every aggregate emitted by a vertex edit carries exactly the
updated room list and a `total_area_sqft` recomputed as the sum of those
rooms' `area_sqft`; consequently every snapshot emitted over any
sequence of edits satisfies the sum invariant. -/
theorem C4_total_is_sum_of_rooms :
    (∀ (md : FloorPlan) (prevRooms : List Room) (roomId : ℤ) (idx : ℕ)
        (pos : ℚ × ℚ) (rooms2 : List Room) (agg : FloorPlan),
      handleDragVertex md prevRooms roomId idx pos = (rooms2, some agg) →
      agg.rooms = rooms2 ∧
        agg.total_area_sqft = (agg.rooms.map Room.area_sqft).sum)
    ∧ ∀ (evs : List (ℤ × ℕ × (ℚ × ℚ))) (md : FloorPlan) (rooms : List Room),
        ∀ agg ∈ emissionTrace evs md rooms,
          agg.total_area_sqft = (agg.rooms.map Room.area_sqft).sum :=
  ⟨handleDrag_emit_inv, emissionTrace_inv⟩

/-- Concrete data for witnesses and counterexamples: a 3-4-5 right
triangle of pixel area 6 declared at 12 sqft. -/
def cexTri : Room := ⟨some 0, "bedroom", [some (0, 0), some (4, 0), some (0, 3)], 12⟩

/-- The aggregate holding just `cexTri`. -/
def cexMd : FloorPlan := ⟨12, [cexTri], 1, 0⟩

/-- A 100-by-100 square room for the viewport-fit scenarios. -/
def cexSq : Room :=
  ⟨some 0, "bedroom", [some (0, 0), some (100, 0), some (100, 100), some (0, 100)], 100⟩

/-- C2 as stated is false: a vertex index equal to the polygon length is
out of range, yet the edit is not a no-op — JS assignment past the end
extends the polygon, the area is recomputed and a snapshot is emitted. -/
theorem C2_invalid_target_counterexample :
    (handleDragVertex cexMd [cexTri] 0 3 (4, 3)).1 ≠ [cexTri] ∧
      (handleDragVertex cexMd [cexTri] 0 3 (4, 3)).2 ≠ none := by
  constructor <;>
    norm_num [handleDragVertex, findRoomIdx, findRoomIdxAux, jsSetVertex, flattenOpt,
      calculatePolygonArea, shoeStep, jsOrOne, jsRound, cexTri, cexMd, List.range_succ]
  exact Option.some_ne_none _

/-- C2 amended: an edit whose `roomId` matches no room is a no-op — the
room list is returned unchanged and no snapshot is emitted; an edit with
an out-of-range `vertexIndex` on an existing room is NOT ignored: the
vertex is written past the end of the polygon (with holes filling any
gap) and a new snapshot is emitted. -/
theorem C2_invalid_target :
    (∀ (md : FloorPlan) (prevRooms : List Room) (roomId : ℤ) (idx : ℕ)
        (pos : ℚ × ℚ), findRoomIdx prevRooms roomId = none →
      handleDragVertex md prevRooms roomId idx pos = (prevRooms, none))
    ∧ ∀ (md : FloorPlan) (prevRooms : List Room) (roomId : ℤ) (idx : ℕ)
        (pos : ℚ × ℚ) (ri : ℕ), findRoomIdx prevRooms roomId = some ri →
        ¬ idx < (prevRooms.getD ri defaultRoom).polygon.length →
        ((handleDragVertex md prevRooms roomId idx pos).1.getD ri
            defaultRoom).polygon =
          (prevRooms.getD ri defaultRoom).polygon ++
            List.replicate (idx - (prevRooms.getD ri defaultRoom).polygon.length)
              none ++ [some pos]
        ∧ (handleDragVertex md prevRooms roomId idx pos).2 ≠ none :=
  ⟨handleDrag_not_found, handleDrag_out_of_range⟩

theorem C2_invalid_target_witness :
    handleDragVertex cexMd [cexTri] 5 0 (1, 1) = ([cexTri], none) ∧
      (((handleDragVertex cexMd [cexTri] 0 3 (4, 3)).1.getD 0 defaultRoom).polygon =
        ([cexTri].getD 0 defaultRoom).polygon ++
          List.replicate (3 - ([cexTri].getD 0 defaultRoom).polygon.length) none ++
          [some (4, 3)]
      ∧ (handleDragVertex cexMd [cexTri] 0 3 (4, 3)).2 ≠ none) :=
  ⟨C2_invalid_target.1 cexMd [cexTri] 5 0 (1, 1)
      (by norm_num [findRoomIdx, findRoomIdxAux, cexTri]),
    C2_invalid_target.2 cexMd [cexTri] 0 3 (4, 3) 0
      (by norm_num [findRoomIdx, findRoomIdxAux, cexTri])
      (by norm_num [cexTri])⟩

theorem jsRound_ten_le (q : ℚ) (h : 10 ≤ q) : (10 : ℤ) ≤ jsRound q := by
  unfold jsRound
  have h1 : ((10 : ℚ) + 1/2) ≤ q + 1/2 := by linarith
  have h2 := Int.floor_le_floor h1
  rw [show ⌊(10 : ℚ) + 1/2⌋ = 10 by norm_num] at h2
  exact h2

theorem jsRound_le_ten (q : ℚ) (h : q ≤ 10) : jsRound q ≤ 10 := by
  unfold jsRound
  have h1 : q + 1/2 ≤ (10 : ℚ) + 1/2 := by linarith
  have h2 := Int.floor_le_floor h1
  rw [show ⌊(10 : ℚ) + 1/2⌋ = 10 by norm_num] at h2
  exact h2

/-- Rounding after clamping at the integer 10 equals clamping after
rounding: the claimed formula `max(10, round(x))` agrees with the
implemented `round(max(10, x))`. -/
theorem jsRound_max_comm (q : ℚ) : jsRound (max 10 q) = max 10 (jsRound q) := by
  rcases le_total q 10 with h | h
  · rw [max_eq_left h, max_eq_left (jsRound_le_ten q h)]
    norm_num [jsRound]
  · rw [max_eq_right h, max_eq_right (jsRound_ten_le q h)]

/-- C3: for every vertex edit that finds its room, the updated room's
`area_sqft` equals `max(10, round(newPixelArea * ratio))` with
`ratio = previous area_sqft / oldPixelArea` (a zero `oldPixelArea`
treated as 1); it is always at least 10, and collapsing the polygon so
that `newPixelArea * ratio` is at most 10 yields exactly 10. -/
theorem C3_area_update_formula (md : FloorPlan) (prevRooms : List Room)
    (roomId : ℤ) (idx : ℕ) (pos : ℚ × ℚ) (ri : ℕ) (room : Room)
    (newPix oldPix ratio : ℚ)
    (hfind : findRoomIdx prevRooms roomId = some ri)
    (hroom : prevRooms.getD ri defaultRoom = room)
    (hnew : calculatePolygonArea (flattenOpt (jsSetVertex room.polygon idx pos)) = newPix)
    (hold : calculatePolygonArea (flattenOpt room.polygon) = oldPix)
    (hratio : room.area_sqft / (if oldPix = 0 then 1 else oldPix) = ratio) :
    ((handleDragVertex md prevRooms roomId idx pos).1.getD ri defaultRoom).area_sqft
      = ((max 10 (jsRound (newPix * ratio)) : ℤ) : ℚ)
    ∧ (10 : ℚ) ≤
        ((handleDragVertex md prevRooms roomId idx pos).1.getD ri defaultRoom).area_sqft
    ∧ (newPix * ratio ≤ 10 →
        ((handleDragVertex md prevRooms roomId idx pos).1.getD ri
          defaultRoom).area_sqft = 10) := by
  have hlt := findRoomIdx_lt prevRooms roomId ri hfind
  have harea : ((handleDragVertex md prevRooms roomId idx pos).1.getD ri
      defaultRoom).area_sqft = ((jsRound (max 10 (newPix * ratio)) : ℤ) : ℚ) := by
    rw [handleDragVertex, hfind]
    simp only [jsOrOne]
    rw [getD_set_self prevRooms ri _ defaultRoom hlt, hroom, hnew, hold, hratio]
  refine ⟨?_, ?_, ?_⟩
  · rw [harea, jsRound_max_comm]
  · rw [harea]
    exact_mod_cast jsRound_ten_le _ (le_max_left _ _)
  · intro hle
    rw [harea, max_eq_left hle]
    norm_num [jsRound]

theorem C3_area_update_formula_witness :
    (((handleDragVertex cexMd [cexTri] 0 0 (0, 0)).1.getD 0 defaultRoom).area_sqft
      = ((max 10 (jsRound (6 * 2)) : ℤ) : ℚ)
    ∧ (10 : ℚ) ≤
        ((handleDragVertex cexMd [cexTri] 0 0 (0, 0)).1.getD 0 defaultRoom).area_sqft
    ∧ ((6 : ℚ) * 2 ≤ 10 →
        ((handleDragVertex cexMd [cexTri] 0 0 (0, 0)).1.getD 0
          defaultRoom).area_sqft = 10)) :=
  C3_area_update_formula cexMd [cexTri] 0 0 (0, 0) 0 cexTri 6 6 2
    (by norm_num [findRoomIdx, findRoomIdxAux, cexTri])
    (by norm_num)
    (by norm_num [cexTri, jsSetVertex, flattenOpt, calculatePolygonArea, shoeStep,
      List.range_succ])
    (by norm_num [cexTri, flattenOpt, calculatePolygonArea, shoeStep, List.range_succ])
    (by norm_num [cexTri])

theorem set_getD_eq_self {α : Type} (l : List α) (i : ℕ) (d : α) (h : i < l.length) :
    l.set i (l.getD i d) = l := by
  induction l generalizing i with
  | nil => simp at h
  | cons x xs ih =>
    cases i with
    | zero => simp
    | succ i =>
      rw [List.getD_cons_succ, List.set_cons_succ,
        ih i (by simpa using Nat.lt_of_succ_lt_succ h)]

theorem flattenOpt_map_some (pts : List (ℚ × ℚ)) :
    flattenOpt (pts.map some) = flattenPairs pts := by
  unfold flattenOpt flattenPairs
  suffices h : ∀ acc : List ℚ,
      (pts.map some).foldl (fun acc p => match p with
        | some q => acc ++ [q.1, q.2]
        | none => acc) acc
        = pts.foldl (fun acc p => acc ++ [p.1, p.2]) acc by
    exact h []
  induction pts with
  | nil => intro acc; rfl
  | cons p rest ih =>
    intro acc
    simp only [List.map_cons, List.foldl_cons]
    exact ih _

theorem jsRound_intCast (n : ℤ) : jsRound ((n : ℤ) : ℚ) = n := by
  unfold jsRound
  rw [add_comm, Int.floor_add_int]
  norm_num

/-- Editing a vertex with its own current position is the identity on
the room list when the room's declared area is an integer of at least 10
and its polygon has nonzero pixel area: the emitted snapshot repeats the
unchanged rooms and their total. -/
theorem handleDrag_self_edit (md : FloorPlan) (prevRooms : List Room)
    (roomId : ℤ) (idx : ℕ) (pos : ℚ × ℚ) (ri : ℕ) (room : Room)
    (pts : List (ℚ × ℚ)) (n : ℤ)
    (hfind : findRoomIdx prevRooms roomId = some ri)
    (hroom : prevRooms.getD ri defaultRoom = room)
    (hdense : room.polygon = pts.map some)
    (hidx : idx < pts.length)
    (hpos : pts.getD idx (0, 0) = pos)
    (harea : room.area_sqft = (n : ℚ))
    (hn : 10 ≤ n)
    (hpix : calculatePolygonArea (flattenPairs pts) ≠ 0) :
    handleDragVertex md prevRooms roomId idx pos =
      (prevRooms, some { md with
        rooms := prevRooms
        total_area_sqft := (prevRooms.map Room.area_sqft).sum }) := by
  have hlt := findRoomIdx_lt prevRooms roomId ri hfind
  have hset : jsSetVertex room.polygon idx pos = room.polygon := by
    rw [jsSetVertex, if_pos (by rw [hdense, List.length_map]; exact hidx)]
    conv_lhs => rw [hdense, ← hpos,
      ← getD_map_lt some pts idx hidx (some (0, 0)) (0, 0)]
    rw [← hdense]
    exact set_getD_eq_self _ _ _ (by rw [hdense, List.length_map]; exact hidx)
  rw [handleDragVertex, hfind]
  simp only [jsOrOne]
  rw [hroom, hset, hdense, flattenOpt_map_some, if_neg hpix, harea,
    mul_div_cancel₀ _ hpix,
    max_eq_right (by exact_mod_cast hn : (10 : ℚ) ≤ ((n : ℤ) : ℚ)),
    jsRound_intCast, ← harea, ← hdense]
  rw [show ({ id := room.id, type := room.type, polygon := room.polygon, area_sqft := room.area_sqft } : Room) = room from rfl]
  rw [← hroom, set_getD_eq_self prevRooms ri defaultRoom hlt]

theorem findRoomIdxAux_set (roomId : ℤ) (l : List Room) :
    ∀ (k : ℕ) (r : Room), (l.getD k defaultRoom).id = r.id →
    ∀ i, findRoomIdxAux roomId (l.set k r) i = findRoomIdxAux roomId l i := by
  induction l with
  | nil => intro k r _ i; rfl
  | cons x xs ih =>
    intro k r hid i
    cases k with
    | zero =>
      rw [List.getD_cons_zero] at hid
      rw [List.set_cons_zero, findRoomIdxAux, findRoomIdxAux, ← hid]
    | succ k =>
      rw [List.getD_cons_succ] at hid
      rw [List.set_cons_succ, findRoomIdxAux, findRoomIdxAux, ih k r hid (i + 1)]

/-- Re-deriving the area from an already-clamped integer area is the
identity: this is the algebraic core of the idempotence of the drag
handler (exact arithmetic; `P1` is the pixel area of the already-edited
polygon, `k` the already-rounded area). -/
theorem second_area (P1 : ℚ) (k : ℤ) (hk : 10 ≤ k) (h0 : P1 = 0 → k = 10) :
    ((jsRound (max 10 (P1 * (((k : ℤ) : ℚ) / jsOrOne P1))) : ℤ) : ℚ) = ((k : ℤ) : ℚ) := by
  by_cases hP : P1 = 0
  · rw [hP, zero_mul, max_eq_left (by norm_num), h0 hP]
    norm_num [jsRound]
  · rw [jsOrOne, if_neg hP, mul_div_cancel₀ _ hP,
      max_eq_right (by exact_mod_cast hk : (10 : ℚ) ≤ ((k : ℤ) : ℚ)), jsRound_intCast]

/-- Re-applying the same in-range displacement a second time (with the
emitted aggregate fed back in as the metadata prop) reproduces the state
and aggregate of the first application exactly. -/
theorem handleDrag_idempotent (md : FloorPlan) (prevRooms : List Room)
    (roomId : ℤ) (idx : ℕ) (pos : ℚ × ℚ) (ri : ℕ) (pts : List (ℚ × ℚ))
    (rooms1 : List Room) (agg1 : FloorPlan)
    (hfind : findRoomIdx prevRooms roomId = some ri)
    (hdense : (prevRooms.getD ri defaultRoom).polygon = pts.map some)
    (hidx : idx < pts.length)
    (hd : handleDragVertex md prevRooms roomId idx pos = (rooms1, some agg1)) :
    handleDragVertex agg1 rooms1 roomId idx pos = (rooms1, some agg1) := by
  have hlt := findRoomIdx_lt prevRooms roomId ri hfind
  rw [handleDragVertex, hfind] at hd
  simp only [Prod.mk.injEq, Option.some.injEq] at hd
  obtain ⟨h1, h2⟩ := hd
  subst h1
  subst h2
  have hpoly1 : jsSetVertex (prevRooms.getD ri defaultRoom).polygon idx pos =
      (pts.set idx pos).map some := by
    rw [jsSetVertex, if_pos (by rw [hdense, List.length_map]; exact hidx), hdense,
      ← List.map_set]
  have hfind2 : findRoomIdx (prevRooms.set ri
      { id := (prevRooms.getD ri defaultRoom).id, type := (prevRooms.getD ri defaultRoom).type, polygon := jsSetVertex (prevRooms.getD ri defaultRoom).polygon idx pos, area_sqft := ((jsRound (max 10 (calculatePolygonArea (flattenOpt (jsSetVertex (prevRooms.getD ri defaultRoom).polygon idx pos)) * ((prevRooms.getD ri defaultRoom).area_sqft / jsOrOne (calculatePolygonArea (flattenOpt (prevRooms.getD ri defaultRoom).polygon))))) : ℤ) : ℚ) }) roomId = some ri := by
    rw [findRoomIdx, findRoomIdxAux_set roomId prevRooms ri]
    · exact hfind
    · rfl
  rw [handleDragVertex, hfind2]
  simp only []
  rw [getD_set_self prevRooms ri _ defaultRoom hlt]
  simp only []
  rw [hpoly1]
  have hlen2 : idx < (List.map (some : ℚ × ℚ → Option (ℚ × ℚ)) (pts.set idx pos)).length := by
    rw [List.length_map, List.length_set]; exact hidx
  have hpoly2 : jsSetVertex (List.map some (pts.set idx pos)) idx pos =
      List.map some (pts.set idx pos) := by
    rw [jsSetVertex, if_pos hlen2, ← List.map_set, List.set_set]
  rw [hpoly2, flattenOpt_map_some]
  have hk : (10 : ℤ) ≤ jsRound (max 10 (calculatePolygonArea (flattenPairs (pts.set idx pos)) * ((prevRooms.getD ri defaultRoom).area_sqft / jsOrOne (calculatePolygonArea (flattenOpt (prevRooms.getD ri defaultRoom).polygon))))) :=
    jsRound_ten_le _ (le_max_left _ _)
  have h0 : calculatePolygonArea (flattenPairs (pts.set idx pos)) = 0 →
      jsRound (max 10 (calculatePolygonArea (flattenPairs (pts.set idx pos)) * ((prevRooms.getD ri defaultRoom).area_sqft / jsOrOne (calculatePolygonArea (flattenOpt (prevRooms.getD ri defaultRoom).polygon))))) = 10 := by
    intro hP
    rw [hP, zero_mul, max_eq_left (by norm_num)]
    norm_num [jsRound]
  rw [second_area (calculatePolygonArea (flattenPairs (pts.set idx pos))) _ hk h0]
  rw [List.set_set]

/-- A 10-by-10 square room declared at only 5 sqft, below the clamp. -/
def cexSq5 : Room :=
  ⟨some 0, "closet", [some (0, 0), some (10, 0), some (10, 10), some (0, 10)], 5⟩

/-- C5 as stated is false: editing vertex 0 of a 10-by-10 square room
declared at 5 sqft with its own current position (0, 0) raises its
`area_sqft` to the clamp value 10 — the self-edit is not the identity
when the declared area is below the 10 sqft floor. -/
theorem C5_idempotent_counterexample :
    ((handleDragVertex ⟨5, [cexSq5], 1, 0⟩ [cexSq5] 0 0 (0, 0)).1.getD 0
        defaultRoom).area_sqft = 10 ∧ cexSq5.area_sqft = 5 := by
  constructor
  · norm_num [handleDragVertex, findRoomIdx, findRoomIdxAux, jsSetVertex,
      flattenOpt, calculatePolygonArea, shoeStep, jsOrOne, jsRound, cexSq5,
      List.range_succ, getD_set_self]
  · norm_num [cexSq5]

/-- C5 amended: (a) a self-edit (new position equal to the vertex's
current position) leaves the room list, the room's `area_sqft` and the
emitted total unchanged PROVIDED the room's area is an integer of at
least 10 and its polygon has nonzero pixel area (otherwise rounding or
the 10 sqft clamp changes the value); (b) re-applying the same in-range
displacement a second time yields exactly the model of the first
application. -/
theorem C5_idempotent_edit :
    (∀ (md : FloorPlan) (prevRooms : List Room) (roomId : ℤ) (idx : ℕ)
        (pos : ℚ × ℚ) (ri : ℕ) (room : Room) (pts : List (ℚ × ℚ)) (n : ℤ),
      findRoomIdx prevRooms roomId = some ri →
      prevRooms.getD ri defaultRoom = room →
      room.polygon = pts.map some →
      idx < pts.length →
      pts.getD idx (0, 0) = pos →
      room.area_sqft = (n : ℚ) →
      10 ≤ n →
      calculatePolygonArea (flattenPairs pts) ≠ 0 →
      handleDragVertex md prevRooms roomId idx pos =
        (prevRooms, some { md with
          rooms := prevRooms
          total_area_sqft := (prevRooms.map Room.area_sqft).sum }))
    ∧ ∀ (md : FloorPlan) (prevRooms : List Room) (roomId : ℤ) (idx : ℕ)
        (pos : ℚ × ℚ) (ri : ℕ) (pts : List (ℚ × ℚ)) (rooms1 : List Room)
        (agg1 : FloorPlan),
        findRoomIdx prevRooms roomId = some ri →
        (prevRooms.getD ri defaultRoom).polygon = pts.map some →
        idx < pts.length →
        handleDragVertex md prevRooms roomId idx pos = (rooms1, some agg1) →
        handleDragVertex agg1 rooms1 roomId idx pos = (rooms1, some agg1) :=
  ⟨handleDrag_self_edit, handleDrag_idempotent⟩

/-- The 100-by-100 square room after its corner was dragged to
(200, 200): pixel area 20000, reconciled area 200 sqft. -/
def cexSq2 : Room :=
  ⟨some 0, "bedroom", [some (0, 0), some (100, 0), some (200, 200), some (0, 100)], 200⟩

theorem C5_idempotent_edit_witness :
    (handleDragVertex cexMd [cexTri] 0 0 (0, 0) =
      ([cexTri], some { cexMd with
        rooms := [cexTri]
        total_area_sqft := ([cexTri].map Room.area_sqft).sum }))
    ∧ handleDragVertex ⟨200, [cexSq2], 1, 0⟩ [cexSq2] 0 2 (200, 200) =
      ([cexSq2], some ⟨200, [cexSq2], 1, 0⟩) :=
  ⟨C5_idempotent_edit.1 cexMd [cexTri] 0 0 (0, 0) 0 cexTri
      [(0, 0), (4, 0), (0, 3)] 12
      (by norm_num [findRoomIdx, findRoomIdxAux, cexTri])
      (by norm_num)
      (by norm_num [cexTri])
      (by norm_num)
      (by norm_num)
      (by norm_num [cexTri])
      (by norm_num)
      (by norm_num [flattenPairs, calculatePolygonArea, shoeStep, List.range_succ]),
    C5_idempotent_edit.2 ⟨100, [cexSq], 1, 0⟩ [cexSq] 0 2 (200, 200) 0
      [(0, 0), (100, 0), (100, 100), (0, 100)] [cexSq2] ⟨200, [cexSq2], 1, 0⟩
      (by norm_num [findRoomIdx, findRoomIdxAux, cexSq])
      (by norm_num [cexSq])
      (by norm_num)
      (by norm_num [handleDragVertex, findRoomIdx, findRoomIdxAux, jsSetVertex,
        flattenOpt, calculatePolygonArea, shoeStep, jsOrOne, jsRound, cexSq,
        cexSq2, List.range_succ])⟩

theorem computeFit_congr (rooms rooms2 : List Room) (w h : ℚ)
    (hne : rooms ≠ []) (hne2 : rooms2 ≠ [])
    (hbb : bboxOf rooms2 = bboxOf rooms) :
    computeFit rooms2 w h = computeFit rooms w h := by
  rw [computeFit, computeFit, hbb]
  simp [hne, hne2]

/-- C1 as stated is false: the auto-scaling effect depends on the
`rooms` state, which every effective drag replaces, so the fit is
recomputed after the drag; dragging the corner of a 100-by-100 room out
to (200, 200) in a 400-by-500 viewport moves the fit from scale 2 to
scale 8/5. -/
theorem C1_fit_stable_counterexample :
    computeFit [cexSq] 400 500 = some ⟨2, 100, 150⟩ ∧
    (dragStep ⟨100, [cexSq], 1, 0⟩ ⟨[cexSq], 400, 500, ⟨2, 100, 150⟩⟩
        0 2 (200, 200)).stageConfig ≠ ⟨2, 100, 150⟩ := by
  constructor <;>
    norm_num [dragStep, handleDragVertex, findRoomIdx, findRoomIdxAux, jsSetVertex,
      flattenOpt, calculatePolygonArea, shoeStep, jsOrOne, jsRound, computeFit,
      bboxOf, cexSq, List.range_succ, List.filterMap_cons, inf_eq_min, sup_eq_max,
      min_def, max_def]

theorem dragStep_refit (md : FloorPlan) (st : EditorState) (roomId : ℤ)
    (idx : ℕ) (pos : ℚ × ℚ) (rooms2 : List Room) (agg : FloorPlan)
    (hd : handleDragVertex md st.rooms roomId idx pos = (rooms2, some agg)) :
    (dragStep md st roomId idx pos).stageConfig =
      (computeFit rooms2 st.width st.height).getD st.stageConfig := by
  rw [dragStep, hd]

/-- C1 amended: the fit IS recomputed as a consequence of every
effective drag — the post-drag stage transform is the fit of the updated
room list (falling back to the previous transform when the effect bails
out); the view frame is identical before and after the edit when the
drag preserves the overall bounding box and the current transform is the
fit of the current rooms. -/
theorem C1_fit_recomputed_on_drag :
    (∀ (md : FloorPlan) (st : EditorState) (roomId : ℤ) (idx : ℕ) (pos : ℚ × ℚ)
        (rooms2 : List Room) (agg : FloorPlan),
      handleDragVertex md st.rooms roomId idx pos = (rooms2, some agg) →
      (dragStep md st roomId idx pos).stageConfig =
        (computeFit rooms2 st.width st.height).getD st.stageConfig)
    ∧ ∀ (md : FloorPlan) (st : EditorState) (roomId : ℤ) (idx : ℕ) (pos : ℚ × ℚ)
        (rooms2 : List Room) (agg : FloorPlan),
        handleDragVertex md st.rooms roomId idx pos = (rooms2, some agg) →
        st.rooms ≠ [] → rooms2 ≠ [] →
        bboxOf rooms2 = bboxOf st.rooms →
        computeFit st.rooms st.width st.height = some st.stageConfig →
        (dragStep md st roomId idx pos).stageConfig = st.stageConfig := by
  refine ⟨dragStep_refit, ?_⟩
  intro md st roomId idx pos rooms2 agg hd hne hne2 hbb hfit
  rw [dragStep_refit md st roomId idx pos rooms2 agg hd,
    computeFit_congr st.rooms rooms2 st.width st.height hne hne2 hbb, hfit]
  rfl

/-- A room whose fourth vertex is interior to the bounding box of the
others, so dragging it does not move the bounding box. -/
def cexSlack : Room :=
  ⟨some 0, "living", [some (0, 0), some (100, 0), some (100, 100), some (50, 50)], 80⟩

/-- The same room after dragging vertex 3 to (60, 60). -/
def cexSlack2 : Room :=
  ⟨some 0, "living", [some (0, 0), some (100, 0), some (100, 100), some (60, 60)], 80⟩

theorem C1_fit_recomputed_on_drag_witness :
    (dragStep ⟨80, [cexSlack], 1, 0⟩ ⟨[cexSlack], 400, 500, ⟨2, 100, 150⟩⟩
        0 3 (60, 60)).stageConfig = ⟨2, 100, 150⟩ :=
  C1_fit_recomputed_on_drag.2 ⟨80, [cexSlack], 1, 0⟩
    ⟨[cexSlack], 400, 500, ⟨2, 100, 150⟩⟩ 0 3 (60, 60) [cexSlack2]
    ⟨80, [cexSlack2], 1, 0⟩
    (by norm_num [handleDragVertex, findRoomIdx, findRoomIdxAux, jsSetVertex,
      flattenOpt, calculatePolygonArea, shoeStep, jsOrOne, jsRound, cexSlack,
      cexSlack2, List.range_succ])
    (by simp)
    (by simp)
    (by norm_num [bboxOf, cexSlack, cexSlack2, List.filterMap_cons,
      inf_eq_min, sup_eq_max, min_def, max_def])
    (by norm_num [computeFit, bboxOf, cexSlack, List.filterMap_cons, jsOrOne,
      inf_eq_min, sup_eq_max, min_def, max_def])

/-- A single room whose polygon is a 200-by-100 rectangle, giving the
specification's example bounding box. -/
def cexRect : Room :=
  ⟨some 0, "hall", [some (0, 0), some (200, 0), some (200, 100), some (0, 100)], 150⟩

/-- C8: when the bounding box is nondegenerate the fit scale is
`min(min((w - 2*40)/bboxWidth, (h - 2*40)/bboxHeight), 2)` (padding 40,
maxScale 2) and the translation maps the bounding-box centre to the
viewport centre; the scale never exceeds 2 for any input; and the
200-by-100 box in a 400-by-400 viewport yields scale 8/5. -/
theorem C8_viewport_fit :
    (∀ (rooms : List Room) (w h : ℚ) (f : Fit) (minX maxX minY maxY : ℚ),
      computeFit rooms w h = some f →
      bboxOf rooms = some (minX, maxX, minY, maxY) →
      maxX - minX ≠ 0 → maxY - minY ≠ 0 →
      f.scale = min (min ((w - 2 * 40) / (maxX - minX))
          ((h - 2 * 40) / (maxY - minY))) 2
      ∧ f.scale * (minX + (maxX - minX) / 2) + f.x = w / 2
      ∧ f.scale * (minY + (maxY - minY) / 2) + f.y = h / 2)
    ∧ (∀ (rooms : List Room) (w h : ℚ) (f : Fit),
        computeFit rooms w h = some f → f.scale ≤ 2)
    ∧ (computeFit [cexRect] 400 400).map Fit.scale = some (8 / 5) := by
  refine ⟨?_, ?_, ?_⟩
  · intro rooms w h f minX maxX minY maxY hcf hbb hbw hbh
    rw [computeFit, hbb] at hcf
    by_cases hcond : w = 0 ∨ rooms = []
    · rw [if_pos hcond] at hcf
      exact absurd hcf (by simp)
    · rw [if_neg hcond] at hcf
      simp only [Option.some.injEq] at hcf
      subst hcf
      refine ⟨?_, ?_, ?_⟩
      · simp only [jsOrOne, if_neg hbw, if_neg hbh]
        norm_num
      · simp only []
        ring
      · simp only []
        ring
  · intro rooms w h f hcf
    rw [computeFit] at hcf
    by_cases hcond : w = 0 ∨ rooms = []
    · rw [if_pos hcond] at hcf
      exact absurd hcf (by simp)
    · rw [if_neg hcond] at hcf
      cases hbb : bboxOf rooms with
      | none => rw [hbb] at hcf; exact absurd hcf (by simp)
      | some q =>
        obtain ⟨minX, maxX, minY, maxY⟩ := q
        rw [hbb] at hcf
        simp only [Option.some.injEq] at hcf
        subst hcf
        exact min_le_right _ _
  · norm_num [computeFit, bboxOf, cexRect, jsOrOne, List.filterMap_cons,
      inf_eq_min, sup_eq_max, min_def, max_def]

theorem C8_viewport_fit_witness :
    ((⟨8/5, 40, 120⟩ : Fit).scale = min (min ((400 - 2 * 40) / (200 - 0))
        ((400 - 2 * 40) / (100 - 0))) 2
    ∧ (⟨8/5, 40, 120⟩ : Fit).scale * (0 + (200 - 0) / 2) + (⟨8/5, 40, 120⟩ : Fit).x
        = 400 / 2
    ∧ (⟨8/5, 40, 120⟩ : Fit).scale * (0 + (100 - 0) / 2) + (⟨8/5, 40, 120⟩ : Fit).y
        = 400 / 2) :=
  C8_viewport_fit.1 [cexRect] 400 400 ⟨8/5, 40, 120⟩ 0 200 0 100
    (by norm_num [computeFit, bboxOf, cexRect, jsOrOne, List.filterMap_cons,
      inf_eq_min, sup_eq_max, min_def, max_def])
    (by norm_num [bboxOf, cexRect, List.filterMap_cons, inf_eq_min, sup_eq_max,
      min_def, max_def])
    (by norm_num)
    (by norm_num)

theorem C4_total_is_sum_of_rooms_witness :
    (⟨12, [cexTri], 1, 0⟩ : FloorPlan).rooms = [cexTri] ∧
      (⟨12, [cexTri], 1, 0⟩ : FloorPlan).total_area_sqft =
        (((⟨12, [cexTri], 1, 0⟩ : FloorPlan).rooms).map Room.area_sqft).sum :=
  C4_total_is_sum_of_rooms.1 cexMd [cexTri] 0 0 (0, 0) [cexTri] ⟨12, [cexTri], 1, 0⟩
    (by norm_num [handleDragVertex, findRoomIdx, findRoomIdxAux, jsSetVertex,
      flattenOpt, calculatePolygonArea, shoeStep, jsOrOne, jsRound, cexTri, cexMd,
      List.range_succ])

/-!
The remaining components use `Math.sqrt`, so they are embedded over ℝ
with `Real.sqrt`: the Polygon Normalizer (the fallback-synthesis effect
in `FloorPlanEditor`) and the 3D Projector (`FloorPlan3D`).  The shoelace
area function is the very same source function as `calculatePolygonArea`
above; it is re-stated over ℝ so it can be applied to the synthesized
coordinates.
-/

/-- JS `Math.round` over the ℝ embedding. -/
noncomputable def jsRoundR (x : ℝ) : ℤ := ⌊x + 1/2⌋

/-- The `calculatePolygonArea` loop body over ℝ (same source as `shoeStep`). -/
noncomputable def shoeStepR (points : List ℝ) (s : ℝ × ℕ) (i : ℕ) : ℝ × ℕ :=
  (s.1 + (points.getD s.2 0 + points.getD i 0) *
    (points.getD (s.2 + 1) 0 - points.getD (i + 1) 0), i)

/-- `calculatePolygonArea` over ℝ (same source function). -/
noncomputable def calculatePolygonAreaR (points : List ℝ) : ℝ :=
  let idxs := (List.range ((points.length + 1) / 2)).map (fun k => 2 * k)
  |(idxs.foldl (shoeStepR points) (0, points.length - 2)).1| / 2

/-- The point-list flattening over ℝ. -/
def flattenPairsR (pts : List (ℝ × ℝ)) : List ℝ :=
  pts.foldl (fun acc p => acc ++ [p.1, p.2]) []

/-- A room as consumed by the normalizer effect: `polygon` and
`area_sqft` may be absent (`none` covers both a missing and a non-numeric
value, which the `typeof` check rejects alike); `width_ft`/`length_ft`
encode `dimensions?.width_ft` with 0 standing for every falsy value
(absent dimensions, absent field, 0, NaN), which the code treats
identically in its truthiness tests. -/
structure NRoom where
  polygon : Option (List (ℝ × ℝ))
  area_sqft : Option ℝ
  width_ft : ℝ
  length_ft : ℝ

/-- The guard `!room.polygon || room.polygon.length < 3`. -/
def needsPolygon (r : NRoom) : Bool :=
  match r.polygon with
  | none => true
  | some ps => ps.length < 3

/-- `safeArea`: the declared area when it is a positive number, else 100. -/
noncomputable def safeAreaOf (r : NRoom) : ℝ :=
  match r.area_sqft with
  | some a => if 0 < a then a else 100
  | none => 100

/-- `w` before the NaN/non-positive guard: `width_ft * 15` when the
width is truthy, else `sqrt(safeArea) * 15`. -/
noncomputable def synthW0 (r : NRoom) : ℝ :=
  if r.width_ft ≠ 0 then r.width_ft * 15 else Real.sqrt (safeAreaOf r) * 15

/-- `l` before the guard: `length_ft * 15` when the length is truthy,
else `(safeArea / (w / 15)) * 15`, computed with the unguarded `w`. -/
noncomputable def synthL0 (r : NRoom) : ℝ :=
  if r.length_ft ≠ 0 then r.length_ft * 15
  else (safeAreaOf r / (synthW0 r / 15)) * 15

/-- `if (isNaN(w) || w <= 0) w = 150` (no NaN exists in the ℝ embedding). -/
noncomputable def synthW (r : NRoom) : ℝ := if synthW0 r ≤ 0 then 150 else synthW0 r

/-- The same guard for `l`. -/
noncomputable def synthL (r : NRoom) : ℝ := if synthL0 r ≤ 0 then 150 else synthL0 r

/-- The synthesized axis-aligned rectangle at horizontal offset `o`. -/
def rectPoly (o w l : ℝ) : List (ℝ × ℝ) := [(o, 0), (o + w, 0), (o + w, l), (o, l)]

/-- One iteration of the normalizer `forEach`: a room lacking a valid
polygon receives the synthesized rectangle and advances the running
offset by its width plus the fixed 20-unit gap; any other room passes
through untouched. -/
noncomputable def normalizeRoom (currentOffset : ℝ) (room : NRoom) : NRoom × ℝ :=
  if needsPolygon room then
    ({ room with polygon := some (rectPoly currentOffset (synthW room) (synthL room)) },
      currentOffset + synthW room + 20)
  else (room, currentOffset)

/-- The whole normalizer pass: a stateful fold over the room list
carrying the running horizontal offset, starting at 0. -/
noncomputable def normalizeRooms (rooms : List NRoom) : List NRoom × ℝ :=
  rooms.foldl (fun acc r =>
    let step := normalizeRoom acc.2 r
    (acc.1 ++ [step.1], step.2)) ([], 0)

theorem calculatePolygonAreaR_rect (o w l : ℝ) (hw : 0 ≤ w) (hl : 0 ≤ l) :
    calculatePolygonAreaR (flattenPairsR (rectPoly o w l)) = w * l := by
  have key : ∀ x : ℝ, x = -(2 * (w * l)) → |x| / 2 = w * l := by
    intro x hx
    rw [hx, abs_neg, abs_of_nonneg (by positivity)]
    ring
  rw [show flattenPairsR (rectPoly o w l) = [o, 0, o + w, 0, o + w, l, o, l] from rfl]
  rw [calculatePolygonAreaR]
  norm_num [List.range_succ, shoeStepR]
  apply key
  ring

theorem synth_square (room : NRoom) (a : ℝ)
    (hw : room.width_ft = 0) (hl : room.length_ft = 0)
    (harea : room.area_sqft = some a) (ha : 0 < a) :
    synthW room = Real.sqrt a * 15 ∧ synthL room = Real.sqrt a * 15 := by
  have hsafe : safeAreaOf room = a := by
    rw [safeAreaOf, harea]
    simp [ha]
  have hsq : 0 < Real.sqrt a := Real.sqrt_pos.mpr ha
  have hw0 : synthW0 room = Real.sqrt a * 15 := by
    rw [synthW0, if_neg (by simp [hw]), hsafe]
  have hl0 : synthL0 room = Real.sqrt a * 15 := by
    rw [synthL0, if_neg (by simp [hl]), hsafe, hw0,
      mul_div_cancel_right₀ _ (by norm_num : (15 : ℝ) ≠ 0), Real.div_sqrt]
  constructor
  · rw [synthW, if_neg (by rw [hw0]; nlinarith [hsq])]
    exact hw0
  · rw [synthL, if_neg (by rw [hl0]; nlinarith [hsq])]
    exact hl0

theorem synthW_pos (room : NRoom) : 0 < synthW room := by
  rw [synthW]
  split
  · norm_num
  · next h => exact lt_of_not_le h

theorem synthL_pos (room : NRoom) : 0 < synthL room := by
  rw [synthL]
  split
  · norm_num
  · next h => exact lt_of_not_le h

theorem normalizeRoom_synth (off : ℝ) (room : NRoom)
    (h : needsPolygon room = true) :
    (normalizeRoom off room).1.polygon =
      some (rectPoly off (synthW room) (synthL room))
    ∧ (normalizeRoom off room).2 = off + synthW room + 20 := by
  rw [normalizeRoom, if_pos h]
  exact ⟨rfl, rfl⟩

theorem C7_normalizer_synthesis :
    (∀ (off : ℝ) (room : NRoom) (a : ℝ),
      needsPolygon room = true → room.width_ft = 0 → room.length_ft = 0 →
      room.area_sqft = some a → 0 < a →
      (normalizeRoom off room).1.polygon =
        some (rectPoly off (Real.sqrt a * 15) (Real.sqrt a * 15)))
    ∧ (∀ (off : ℝ) (room : NRoom),
      needsPolygon room = true → 0 < room.width_ft → 0 < room.length_ft →
      (normalizeRoom off room).1.polygon =
        some (rectPoly off (room.width_ft * 15) (room.length_ft * 15)))
    ∧ (∀ (off : ℝ) (room : NRoom),
      needsPolygon room = true → room.width_ft = 0 → room.length_ft = 0 →
      room.area_sqft = some 100 →
      ∃ ps, (normalizeRoom off room).1.polygon = some ps ∧
        jsRoundR (calculatePolygonAreaR (flattenPairsR ps) / 15 ^ 2) = 100)
    ∧ ∀ (off : ℝ) (room : NRoom), needsPolygon room = true →
        0 < synthW room ∧
        (normalizeRoom off room).2 = off + synthW room + 20 ∧
        (normalizeRoom off room).1.polygon =
          some (rectPoly off (synthW room) (synthL room)) := by
  refine ⟨?_, ?_, ?_, ?_⟩
  · intro off room a h hw hl harea ha
    obtain ⟨hW, hL⟩ := synth_square room a hw hl harea ha
    rw [(normalizeRoom_synth off room h).1, hW, hL]
  · intro off room h hw hl
    have hw0 : synthW0 room = room.width_ft * 15 := by
      rw [synthW0, if_pos (by exact ne_of_gt hw)]
    have hl0 : synthL0 room = room.length_ft * 15 := by
      rw [synthL0, if_pos (by exact ne_of_gt hl)]
    have hW : synthW room = room.width_ft * 15 := by
      rw [synthW, if_neg (by rw [hw0]; nlinarith), hw0]
    have hL : synthL room = room.length_ft * 15 := by
      rw [synthL, if_neg (by rw [hl0]; nlinarith), hl0]
    rw [(normalizeRoom_synth off room h).1, hW, hL]
  · intro off room h hw hl harea
    obtain ⟨hW, hL⟩ := synth_square room 100 hw hl harea (by norm_num)
    have hsqrt : Real.sqrt (100 : ℝ) = 10 := by
      rw [show (100 : ℝ) = 10 ^ 2 by norm_num,
        Real.sqrt_sq (by norm_num : (0 : ℝ) ≤ 10)]
    refine ⟨rectPoly off (synthW room) (synthL room),
      (normalizeRoom_synth off room h).1, ?_⟩
    rw [hW, hL, hsqrt]
    rw [calculatePolygonAreaR_rect off (10 * 15) (10 * 15) (by norm_num) (by norm_num)]
    norm_num [jsRoundR]
  · intro off room h
    exact ⟨synthW_pos room, (normalizeRoom_synth off room h).2,
      (normalizeRoom_synth off room h).1⟩

/-- A room with no polygon, no dimensions and a declared area of 100. -/
def nroom100 : NRoom := ⟨none, some 100, 0, 0⟩

theorem C7_normalizer_synthesis_witness :
    (normalizeRoom 0 nroom100).1.polygon =
      some (rectPoly 0 (Real.sqrt 100 * 15) (Real.sqrt 100 * 15))
    ∧ ∃ ps, (normalizeRoom 0 nroom100).1.polygon = some ps ∧
        jsRoundR (calculatePolygonAreaR (flattenPairsR ps) / 15 ^ 2) = 100 :=
  ⟨C7_normalizer_synthesis.1 0 nroom100 100 rfl rfl rfl rfl (by norm_num),
    C7_normalizer_synthesis.2.2.1 0 nroom100 rfl rfl rfl rfl⟩

theorem C10_normalizer_fallback_safe :
    (∀ room : NRoom, room.area_sqft = none → safeAreaOf room = 100)
    ∧ (∀ (room : NRoom) (a : ℝ), room.area_sqft = some a → a ≤ 0 →
        safeAreaOf room = 100)
    ∧ (∀ room : NRoom, room.width_ft < 0 → synthW room = 150)
    ∧ ∀ (off : ℝ) (room : NRoom), needsPolygon room = true →
        ∃ w l : ℝ, 0 < w ∧ 0 < l ∧
          (normalizeRoom off room).1.polygon = some (rectPoly off w l) ∧
          (rectPoly off w l).length = 4 ∧
          calculatePolygonAreaR (flattenPairsR (rectPoly off w l)) = w * l ∧
          0 < w * l := by
  refine ⟨?_, ?_, ?_, ?_⟩
  · intro room h
    rw [safeAreaOf, h]
  · intro room a h ha
    rw [safeAreaOf, h]
    simp [not_lt.mpr ha]
  · intro room h
    have hne : room.width_ft ≠ 0 := ne_of_lt h
    rw [synthW, if_pos (by rw [synthW0, if_pos hne]; nlinarith)]
  · intro off room h
    refine ⟨synthW room, synthL room, synthW_pos room, synthL_pos room,
      (normalizeRoom_synth off room h).1, rfl, ?_, ?_⟩
    · exact calculatePolygonAreaR_rect off _ _ (le_of_lt (synthW_pos room))
        (le_of_lt (synthL_pos room))
    · exact mul_pos (synthW_pos room) (synthL_pos room)

theorem C10_normalizer_fallback_safe_witness :
    safeAreaOf ⟨none, none, 0, 0⟩ = 100
    ∧ ∃ w l : ℝ, 0 < w ∧ 0 < l ∧
        (normalizeRoom 0 nroom100).1.polygon = some (rectPoly 0 w l) ∧
        (rectPoly 0 w l).length = 4 ∧
        calculatePolygonAreaR (flattenPairsR (rectPoly 0 w l)) = w * l ∧
        0 < w * l :=
  ⟨C10_normalizer_fallback_safe.1 ⟨none, none, 0, 0⟩ rfl,
    C10_normalizer_fallback_safe.2.2.2 0 nroom100 rfl⟩

/-!
The 3D Projector (`FloorPlan3D` and its `Room` child component).  The
claim-relevant fragment is the per-room offset computed in the
`rooms.map` loop — including the vertical component
`roomOffset.y = floorIndex * wallHeight` — and the position at which
the `Room` component actually renders its group:
`<group position={[offset.x, 0, offset.z]}>`.
-/

/-- The fixed wall height (declared as `wallHeight = 8` in both
`FloorPlan3D`'s loop and the `Room` component). -/
def wallHeight3D : ℝ := 8

/-- A room as consumed by `FloorPlan3D`: polygon, declared area,
dimension fields with the same falsy-as-zero encoding as the
normalizer, and the (dynamically accessed) 1-based `floor` index. -/
structure Room3D where
  polygon : Option (List (ℝ × ℝ))
  area_sqft : ℝ
  width_ft : ℝ
  length_ft : ℝ
  floor : Option ℤ

/-- `room.floor ? room.floor - 1 : 0`: the 0-based floor index, with a
missing or zero floor treated as ground floor. -/
def floorIndex (r : Room3D) : ℤ :=
  match r.floor with
  | some f => if f ≠ 0 then f - 1 else 0
  | none => 0

/-- The grid fallback offset used when a room has no polygon data:
column-major placement in a fixed 3-column grid with a 2-unit gap,
sized by the nominal dimensions (or sqrt of the area). -/
noncomputable def gridFallback (offset : ℝ × ℝ × ℝ) (i : ℕ) (room : Room3D) :
    ℝ × ℝ × ℝ :=
  let col : ℕ := i % 3
  let row : ℕ := i / 3
  let width := if room.width_ft ≠ 0 then room.width_ft else Real.sqrt room.area_sqft
  let length := if room.length_ft ≠ 0 then room.length_ft else room.area_sqft / width
  (offset.1 + (col : ℝ) * (width + 2), 0, offset.2.2 + (row : ℝ) * (length + 2))

/-- The `roomOffset` computed for the `i`-th room inside `rooms.map` in
`FloorPlan3D`: the global centering offset (or the grid fallback for
polygon-less rooms), with the vertical component then set to
`floorIndex * wallHeight`. -/
noncomputable def computeRoomOffset (offset : ℝ × ℝ × ℝ) (i : ℕ) (room : Room3D) :
    ℝ × ℝ × ℝ :=
  let base : ℝ × ℝ × ℝ :=
    match room.polygon with
    | some ps => if ps.length = 0 then gridFallback offset i room else offset
    | none => gridFallback offset i room
  (base.1, (floorIndex room : ℝ) * wallHeight3D, base.2.2)

/-- The position at which the `Room` component places its group:
`position={[offset.x, 0, offset.z]}` — the y component of the offset it
receives is replaced by the literal 0. -/
def roomGroupPosition (offset : ℝ × ℝ × ℝ) : ℝ × ℝ × ℝ := (offset.1, 0, offset.2.2)

/-- A triangular room on floor 1. -/
def cexRoom3D1 : Room3D := ⟨some [(0, 0), (1, 0), (0, 1)], 100, 0, 0, some 1⟩

/-- The same room on floor 2. -/
def cexRoom3D2 : Room3D := ⟨some [(0, 0), (1, 0), (0, 1)], 100, 0, 0, some 2⟩

/-- C9: `FloorPlan3D` does compute vertical offsets one wall height
apart for floors 1 and 2 (`roomOffset.y = (floor - 1) * 8`), but the
`Room` component renders its group at `[offset.x, 0, offset.z]`,
discarding the y component — both shells are placed at height 0, so the
rendered vertical offsets do NOT differ by a wall height.  The computed
value contradicts the rendered one: a slip in the code, not the spec. -/
theorem C9_floor_offset_dropped :
    (computeRoomOffset (0, 0, 0) 1 cexRoom3D2).2.1 -
      (computeRoomOffset (0, 0, 0) 0 cexRoom3D1).2.1 = wallHeight3D
    ∧ (roomGroupPosition (computeRoomOffset (0, 0, 0) 1 cexRoom3D2)).2.1 = 0
    ∧ (roomGroupPosition (computeRoomOffset (0, 0, 0) 0 cexRoom3D1)).2.1 = 0
    ∧ wallHeight3D ≠ 0 := by
  refine ⟨?_, rfl, rfl, by norm_num [wallHeight3D]⟩
  norm_num [computeRoomOffset, floorIndex, cexRoom3D1, cexRoom3D2, wallHeight3D]
